import Mathlib

/-!
Verification of the flow-densification core of FlowOnTheGo.

The repository sources provide the declarations of the densification
kernels in src/src/kernels/densify.h (cu::densifyPatch, cu::densifyPatches,
cu::normalizeFlow) and the full preprocessing wrapper
src/src/kernels/resizeGrad.cpp (cu::resizeGrad).  The kernel bodies
themselves are not part of the given sources, so the densification
operations are modelled from the specification (sections 3, 4 and 5 of the
spec), while resizeGrad is embedded directly from its source.

Machine floats are modelled as rationals, machine ints as integers.
-/

namespace Densify

/-- Modelled from the spec: the img_params configuration struct (image width
and height), passed by pointer to cu::densifyPatches. -/
structure ImageParams where
  width : ℤ
  height : ℤ

/-- Modelled from the spec: the opt_params configuration struct with the
tunables the weighting rule needs, the patch size and the error floor
minErrVal. -/
structure OptParams where
  patchSize : ℤ
  minErrVal : ℚ

/-- Modelled from the spec: one PatchEstimate produced by the external
matching stage: midpoint, motion vector, per-pixel cost-difference map
(indexed by the offset within the patch), the side length the cost map
claims to have (used only by the contract check), and the validity flag. -/
structure PatchEstimate where
  midX : ℤ
  midY : ℤ
  flowX : ℚ
  flowY : ℚ
  cost : ℤ → ℤ → ℚ
  costSize : ℤ
  valid : Bool

/-- Modelled from the spec: the FlowAccumulator, two dense per-pixel arrays
of accumulated weighted flow (two components) and accumulated weight. -/
@[ext]
structure FlowAccumulator where
  flowX : ℤ → ℤ → ℚ
  flowY : ℤ → ℤ → ℚ
  weight : ℤ → ℤ → ℚ

/-- Lower x bound of a patch footprint: midpoint minus patchSize / 2. -/
def loX (p : PatchEstimate) (op : OptParams) : ℤ := p.midX - op.patchSize / 2

/-- Upper (exclusive) x bound of a patch footprint. -/
def hiX (p : PatchEstimate) (op : OptParams) : ℤ := p.midX + op.patchSize / 2

/-- Lower y bound of a patch footprint. -/
def loY (p : PatchEstimate) (op : OptParams) : ℤ := p.midY - op.patchSize / 2

/-- Upper (exclusive) y bound of a patch footprint. -/
def hiY (p : PatchEstimate) (op : OptParams) : ℤ := p.midY + op.patchSize / 2

/-- Pixel (x, y) lies in the unclipped footprint
[midpoint - patchSize / 2, midpoint + patchSize / 2) of patch p. -/
def inFootprint (p : PatchEstimate) (op : OptParams) (x y : ℤ) : Prop :=
  loX p op ≤ x ∧ x < hiX p op ∧ loY p op ≤ y ∧ y < hiY p op

instance (p : PatchEstimate) (op : OptParams) (x y : ℤ) :
    Decidable (inFootprint p op x y) := by
  unfold inFootprint; infer_instance

/-- Pixel (x, y) lies inside the image rectangle [0, width) x [0, height). -/
def inImage (ip : ImageParams) (x y : ℤ) : Prop :=
  0 ≤ x ∧ x < ip.width ∧ 0 ≤ y ∧ y < ip.height

instance (ip : ImageParams) (x y : ℤ) : Decidable (inImage ip x y) := by
  unfold inImage; infer_instance

/-- The local cost-difference value of patch p at image pixel (x, y): the
cost map is read at the pixel offset within the patch. -/
def costAt (p : PatchEstimate) (op : OptParams) (x y : ℤ) : ℚ :=
  p.cost (x - loX p op) (y - loY p op)

/-- Modelled from the spec: the confidence weight 1 / (c + minErrVal)
contributed by patch p at pixel (x, y), where c is the local
cost-difference value. -/
def patchWeight (p : PatchEstimate) (op : OptParams) (x y : ℤ) : ℚ :=
  1 / (costAt p op x y + op.minErrVal)

/-- Patch p contributes to pixel (x, y): it is valid and the pixel lies in
its footprint clipped to the image. -/
def contributes (p : PatchEstimate) (ip : ImageParams) (op : OptParams)
    (x y : ℤ) : Prop :=
  p.valid = true ∧ inFootprint p op x y ∧ inImage ip x y

instance (p : PatchEstimate) (ip : ImageParams) (op : OptParams) (x y : ℤ) :
    Decidable (contributes p ip op x y) := by
  unfold contributes; infer_instance

/-- Modelled from the spec: the body of cu::densifyPatch is absent from the
repository sources (densify.h only declares it).  Section 4.1 Scatter: skip
if the validity flag is false; otherwise, for each pixel of the footprint
clipped to the image, add weight times flow to the accumulated-flow cells
and weight to the accumulated-weight cell. -/
def densifyPatch (p : PatchEstimate) (ip : ImageParams) (op : OptParams)
    (acc : FlowAccumulator) : FlowAccumulator :=
  if p.valid then
    { flowX := fun x y =>
        if inFootprint p op x y ∧ inImage ip x y then
          acc.flowX x y + patchWeight p op x y * p.flowX
        else acc.flowX x y
      flowY := fun x y =>
        if inFootprint p op x y ∧ inImage ip x y then
          acc.flowY x y + patchWeight p op x y * p.flowY
        else acc.flowY x y
      weight := fun x y =>
        if inFootprint p op x y ∧ inImage ip x y then
          acc.weight x y + patchWeight p op x y
        else acc.weight x y }
  else acc

/-- The zero-initialized accumulator the Orchestrator starts from. -/
def zeroAcc : FlowAccumulator :=
  { flowX := fun _ _ => 0, flowY := fun _ _ => 0, weight := fun _ _ => 0 }

/-- Modelled from the spec: the body of cu::densifyPatches is absent from
the repository sources (densify.h only declares it).  Section 4.2
Orchestrator: zero-initialize the accumulator, then accumulate every
patch (the order is irrelevant to the mathematical result). -/
def densifyPatches (ps : List PatchEstimate) (ip : ImageParams)
    (op : OptParams) : FlowAccumulator :=
  List.foldl (fun acc p => densifyPatch p ip op acc) zeroAcc ps

/-- Modelled from the spec: the body of cu::normalizeFlow is absent from
the repository sources (densify.h only declares it).  Section 4.3
Normalizer: per pixel, divide accumulated flow by accumulated weight when
the weight is positive, otherwise leave the flow untouched. -/
def normalizeFlow (acc : FlowAccumulator) : FlowAccumulator :=
  { flowX := fun x y =>
      if 0 < acc.weight x y then acc.flowX x y / acc.weight x y
      else acc.flowX x y
    flowY := fun x y =>
      if 0 < acc.weight x y then acc.flowY x y / acc.weight x y
      else acc.flowY x y
    weight := acc.weight }

/-- The single patch of the end-to-end scenario of section 8: midpoint
(1, 1), flow (2, -1), cost-difference 0 everywhere, valid. -/
def scenarioPatch : PatchEstimate :=
  { midX := 1, midY := 1, flowX := 2, flowY := -1
    cost := fun _ _ => 0, costSize := 2, valid := true }

/-- The 4 x 4 image of the end-to-end scenario. -/
def scenarioIp : ImageParams := { width := 4, height := 4 }

/-- patchSize = 2 and minErrVal = 0.01, the tunables of the scenario. -/
def scenarioOp : OptParams := { patchSize := 2, minErrVal := 1 / 100 }

/-- A patch identical to the scenario patch except that its validity flag
is false; used to exhibit that invalid patches have no effect. -/
def invalidPatch : PatchEstimate :=
  { midX := 1, midY := 1, flowX := 2, flowY := -1
    cost := fun _ _ => 0, costSize := 2, valid := false }

/-- Modelled from the spec: one atomic add to the accumulator planes at a
single pixel, the unit of write issued during the scatter phase
(sections 4.1 and 5): weight times flowX and weight times flowY to the
flow cell and weight to the weight cell at (x, y). -/
structure WriteOp where
  x : ℤ
  y : ℤ
  dFlowX : ℚ
  dFlowY : ℚ
  dWeight : ℚ

/-- Apply one atomic add: every plane is incremented at the target pixel
and untouched elsewhere. -/
def applyOp (acc : FlowAccumulator) (o : WriteOp) : FlowAccumulator :=
  { flowX := fun x y =>
      if o.x = x ∧ o.y = y then acc.flowX x y + o.dFlowX
      else acc.flowX x y
    flowY := fun x y =>
      if o.x = x ∧ o.y = y then acc.flowY x y + o.dFlowY
      else acc.flowY x y
    weight := fun x y =>
      if o.x = x ∧ o.y = y then acc.weight x y + o.dWeight
      else acc.weight x y }

/-- Execute a sequence of atomic adds: one interleaving of the concurrent
writes of the scatter phase. -/
def applyOps (ops : List WriteOp) (acc : FlowAccumulator) : FlowAccumulator :=
  List.foldl applyOp acc ops

/-- The x coordinates of the clipped footprint of a patch, in order: the
x range of the footprint filtered to the image width. -/
def footprintXs (p : PatchEstimate) (ip : ImageParams) (op : OptParams) :
    List ℤ :=
  List.filter (fun a => decide (0 ≤ a ∧ a < ip.width))
    (List.map (fun i : ℕ => loX p op + (i : ℤ))
      (List.range (hiX p op - loX p op).toNat))

/-- The y coordinates of the clipped footprint of a patch, in order: the
y range of the footprint filtered to the image height. -/
def footprintYs (p : PatchEstimate) (ip : ImageParams) (op : OptParams) :
    List ℤ :=
  List.filter (fun a => decide (0 ≤ a ∧ a < ip.height))
    (List.map (fun i : ℕ => loY p op + (i : ℤ))
      (List.range (hiY p op - loY p op).toNat))

/-- The pixels of the clipped footprint of a patch. -/
def footprintPixels (p : PatchEstimate) (ip : ImageParams)
    (op : OptParams) : List (ℤ × ℤ) :=
  footprintXs p ip op ×ˢ footprintYs p ip op

/-- Modelled from the spec: the atomic adds one Scatter unit issues, one
per pixel of its clipped footprint; an invalid patch issues none
(sections 4.1 and 5). -/
def writeOps (p : PatchEstimate) (ip : ImageParams) (op : OptParams) :
    List WriteOp :=
  if p.valid then
    List.map (fun q =>
      { x := q.1, y := q.2
        dFlowX := patchWeight p op q.1 q.2 * p.flowX
        dFlowY := patchWeight p op q.1 q.2 * p.flowY
        dWeight := patchWeight p op q.1 q.2 })
      (footprintPixels p ip op)
  else []

/-- Two concrete atomic adds aimed at the same cell, used as witnesses of
order invariance. -/
def opA : WriteOp := { x := 0, y := 0, dFlowX := 1, dFlowY := 2, dWeight := 3 }

/-- Second concrete atomic add, see opA. -/
def opB : WriteOp := { x := 0, y := 0, dFlowX := 5, dFlowY := 6, dWeight := 7 }

/-- Modelled from the spec: the contract violations of section 4.1 a
Scatter unit reports to the Orchestrator. -/
inductive DensifyError where
  | outOfRangeMidpoint
  | nonPositivePatchSize
  | mismatchedCostMap
deriving DecidableEq

/-- Modelled from the spec: the precondition check of one patch
(section 4.1): out-of-range midpoint, non-positive patchSize, or cost-map
dimensions that do not match the patch size. -/
def patchViolation (p : PatchEstimate) (ip : ImageParams) (op : OptParams) :
    Option DensifyError :=
  if ¬ (0 ≤ p.midX ∧ p.midX < ip.width ∧ 0 ≤ p.midY ∧ p.midY < ip.height) then
    some DensifyError.outOfRangeMidpoint
  else if op.patchSize ≤ 0 then some DensifyError.nonPositivePatchSize
  else if ¬ p.costSize = op.patchSize then some DensifyError.mismatchedCostMap
  else none

/-- The first contract violation reported across the patch set, if any. -/
def firstViolation (ps : List PatchEstimate) (ip : ImageParams)
    (op : OptParams) : Option DensifyError :=
  List.findSome? (fun p => patchViolation p ip op) ps

/-- Modelled from the spec: the failure semantics of the Orchestrator
(section 4.2): if any Scatter unit reports a contract violation the whole
pass aborts with that error and no accumulator is surfaced; otherwise the
fully accumulated FlowAccumulator is returned. -/
def densifyPatchesChecked (ps : List PatchEstimate) (ip : ImageParams)
    (op : OptParams) : Except DensifyError FlowAccumulator :=
  match firstViolation ps ip op with
  | some e => Except.error e
  | none => Except.ok (densifyPatches ps ip op)

/-- A patch whose midpoint lies outside every image, violating the Scatter
precondition; used as a witness. -/
def badPatch : PatchEstimate :=
  { midX := -5, midY := 1, flowX := 2, flowY := -1
    cost := fun _ _ => 0, costSize := 2, valid := true }

end Densify

namespace CuMat

/-- The slice of a cv::Mat that cu::resizeGrad inspects or produces: its
dimensions, its element type tag and a token standing for its pixel
contents. -/
structure Mat where
  rows : ℤ
  cols : ℤ
  matType : ℤ
  data : ℕ
deriving DecidableEq

/-- The OpenCV type tag CV_32FC3: depth CV_32F (5) with 3 channels. -/
def CV_32FC3 : ℤ := 5 + ((3 - 1) <<< 3)

/-- The exception resizeGrad throws on a malformed input type. -/
inductive RGError where
  | invalidArgument
deriving DecidableEq

/-- The observable side-effecting steps of cu::resizeGrad, in source
order: querying the resize rectangle, device and host allocation, the
host-to-device copy, the resize kernel, three device-to-host copies, the
two Sobel kernels and the final copies into the output matrices. -/
inductive RGStep where
  | getRect
  | deviceAlloc
  | hostAlloc
  | memcpyHD
  | resizeKernel
  | copyResizeDH
  | sobelHoriz
  | copyDxDH
  | sobelVert
  | copyDyDH
  | writeOutputs
deriving DecidableEq

/-- The four matrices live after a successful run: the untouched source
and the three freshly written outputs. -/
structure RGResult where
  src : Mat
  dst : Mat
  dstX : Mat
  dstY : Mat
deriving DecidableEq

/-- Embedding of cu::resizeGrad (src/src/kernels/resizeGrad.cpp).  The
function first checks src.type() against CV_32FC3 and throws
std::invalid_argument before any other step; otherwise it computes the
destination rectangle with nppiGetResizeRect (modelled by the external
parameter getRect applied to the source width, height and the two scale
factors), runs the device pipeline, and copies three freshly allocated
buffers of the rectangle dimensions into dst, dst_x and dst_y.  The data
tokens fresh, fresh + 1 and fresh + 2 stand for the newly produced pixel
contents.  The returned list records the side-effecting steps in order;
an abort by throw produces none of them. -/
def resizeGrad (getRect : ℤ → ℤ → ℚ → ℚ → ℤ × ℤ) (fresh : ℕ)
    (src dst dstX dstY : Mat) (scaleX scaleY : ℚ) :
    List RGStep × Except RGError RGResult :=
  if src.matType ≠ CV_32FC3 then
    ([], Except.error RGError.invalidArgument)
  else
    ([RGStep.getRect, RGStep.deviceAlloc, RGStep.hostAlloc, RGStep.memcpyHD,
      RGStep.resizeKernel, RGStep.copyResizeDH, RGStep.sobelHoriz,
      RGStep.copyDxDH, RGStep.sobelVert, RGStep.copyDyDH,
      RGStep.writeOutputs],
     Except.ok
       { src := src
         dst := { rows := (getRect src.cols src.rows scaleX scaleY).2
                  cols := (getRect src.cols src.rows scaleX scaleY).1
                  matType := CV_32FC3, data := fresh }
         dstX := { rows := (getRect src.cols src.rows scaleX scaleY).2
                   cols := (getRect src.cols src.rows scaleX scaleY).1
                   matType := CV_32FC3, data := fresh + 1 }
         dstY := { rows := (getRect src.cols src.rows scaleX scaleY).2
                   cols := (getRect src.cols src.rows scaleX scaleY).1
                   matType := CV_32FC3, data := fresh + 2 } })

/-- A conforming 3 x 2 source image, used as a witness. -/
def goodSrc : Mat := { rows := 2, cols := 3, matType := CV_32FC3, data := 0 }

/-- A source image of the wrong element type, used as a witness. -/
def badSrc : Mat := { rows := 2, cols := 3, matType := 0, data := 0 }

end CuMat

namespace Densify

/-- Pointwise effect of one Scatter on the accumulated-weight plane. -/
lemma densifyPatch_weight_eq (p : PatchEstimate) (ip : ImageParams)
    (op : OptParams) (acc : FlowAccumulator) (x y : ℤ) :
    (densifyPatch p ip op acc).weight x y =
      acc.weight x y +
        (if contributes p ip op x y then patchWeight p op x y else 0) := by
  unfold densifyPatch contributes
  by_cases hv : p.valid = true
  · by_cases hg : inFootprint p op x y ∧ inImage ip x y
    all_goals simp [hv, hg]
  · simp [hv]

/-- Pointwise effect of one Scatter on the first accumulated-flow plane. -/
lemma densifyPatch_flowX_eq (p : PatchEstimate) (ip : ImageParams)
    (op : OptParams) (acc : FlowAccumulator) (x y : ℤ) :
    (densifyPatch p ip op acc).flowX x y =
      acc.flowX x y +
        (if contributes p ip op x y then patchWeight p op x y * p.flowX
         else 0) := by
  unfold densifyPatch contributes
  by_cases hv : p.valid = true
  · by_cases hg : inFootprint p op x y ∧ inImage ip x y
    all_goals simp [hv, hg]
  · simp [hv]

/-- Pointwise effect of one Scatter on the second accumulated-flow plane. -/
lemma densifyPatch_flowY_eq (p : PatchEstimate) (ip : ImageParams)
    (op : OptParams) (acc : FlowAccumulator) (x y : ℤ) :
    (densifyPatch p ip op acc).flowY x y =
      acc.flowY x y +
        (if contributes p ip op x y then patchWeight p op x y * p.flowY
         else 0) := by
  unfold densifyPatch contributes
  by_cases hv : p.valid = true
  · by_cases hg : inFootprint p op x y ∧ inImage ip x y
    all_goals simp [hv, hg]
  · simp [hv]

/-- The Bool form of the contribution test, used to filter patch lists. -/
def contributesB (ip : ImageParams) (op : OptParams) (x y : ℤ)
    (p : PatchEstimate) : Bool :=
  decide (contributes p ip op x y)

/-- Accumulating a patch list on top of any starting accumulator adds, at
each pixel, the sum of the weights of the contributing patches. -/
lemma foldl_weight_eq (ps : List PatchEstimate) (ip : ImageParams)
    (op : OptParams) (acc : FlowAccumulator) (x y : ℤ) :
    (List.foldl (fun a p => densifyPatch p ip op a) acc ps).weight x y =
      acc.weight x y +
        (List.map (fun p => patchWeight p op x y)
          (List.filter (contributesB ip op x y) ps)).sum := by
  induction ps generalizing acc with
  | nil => simp
  | cons p ps ih =>
      simp only [List.foldl_cons, List.filter_cons]
      rw [ih, densifyPatch_weight_eq]
      by_cases hc : contributes p ip op x y
      · rw [if_pos hc]
        have hd : contributesB ip op x y p = true := by
          simp [contributesB, hc]
        simp only [hd, if_true, List.map_cons, List.sum_cons]
        ring
      · rw [if_neg hc]
        have hd : contributesB ip op x y p = false := by
          simp [contributesB, hc]
        simp [hd]

/-- Accumulating a patch list adds, at each pixel, the sum of the weighted
x flows of the contributing patches. -/
lemma foldl_flowX_eq (ps : List PatchEstimate) (ip : ImageParams)
    (op : OptParams) (acc : FlowAccumulator) (x y : ℤ) :
    (List.foldl (fun a p => densifyPatch p ip op a) acc ps).flowX x y =
      acc.flowX x y +
        (List.map (fun p => patchWeight p op x y * p.flowX)
          (List.filter (contributesB ip op x y) ps)).sum := by
  induction ps generalizing acc with
  | nil => simp
  | cons p ps ih =>
      simp only [List.foldl_cons, List.filter_cons]
      rw [ih, densifyPatch_flowX_eq]
      by_cases hc : contributes p ip op x y
      · rw [if_pos hc]
        have hd : contributesB ip op x y p = true := by
          simp [contributesB, hc]
        simp only [hd, if_true, List.map_cons, List.sum_cons]
        ring
      · rw [if_neg hc]
        have hd : contributesB ip op x y p = false := by
          simp [contributesB, hc]
        simp [hd]

/-- Accumulating a patch list adds, at each pixel, the sum of the weighted
y flows of the contributing patches. -/
lemma foldl_flowY_eq (ps : List PatchEstimate) (ip : ImageParams)
    (op : OptParams) (acc : FlowAccumulator) (x y : ℤ) :
    (List.foldl (fun a p => densifyPatch p ip op a) acc ps).flowY x y =
      acc.flowY x y +
        (List.map (fun p => patchWeight p op x y * p.flowY)
          (List.filter (contributesB ip op x y) ps)).sum := by
  induction ps generalizing acc with
  | nil => simp
  | cons p ps ih =>
      simp only [List.foldl_cons, List.filter_cons]
      rw [ih, densifyPatch_flowY_eq]
      by_cases hc : contributes p ip op x y
      · rw [if_pos hc]
        have hd : contributesB ip op x y p = true := by
          simp [contributesB, hc]
        simp only [hd, if_true, List.map_cons, List.sum_cons]
        ring
      · rw [if_neg hc]
        have hd : contributesB ip op x y p = false := by
          simp [contributesB, hc]
        simp [hd]

/-- Claim C4: after densifyPatches, the accumulated weight at a pixel is the
sum of the weights contributed by exactly the valid patches whose clipped
footprint covers that pixel, and it is 0 when no patch contributes, the
accumulators being zero-initialized. -/
theorem densifyPatches_weight_conservation (ps : List PatchEstimate)
    (ip : ImageParams) (op : OptParams) (x y : ℤ) :
    (densifyPatches ps ip op).weight x y =
      (List.map (fun p => patchWeight p op x y)
        (List.filter (contributesB ip op x y) ps)).sum
    ∧ ((∀ p ∈ ps, ¬ contributes p ip op x y) →
        (densifyPatches ps ip op).weight x y = 0) := by
  have hbase : (densifyPatches ps ip op).weight x y =
      (List.map (fun p => patchWeight p op x y)
        (List.filter (contributesB ip op x y) ps)).sum := by
    unfold densifyPatches
    rw [foldl_weight_eq]
    simp [zeroAcc]
  refine ⟨hbase, fun hnone => ?_⟩
  rw [hbase]
  have hnil : List.filter (contributesB ip op x y) ps = [] := by
    rw [List.filter_eq_nil_iff]
    intro p hp
    simp only [contributesB, decide_eq_true_eq]
    exact hnone p hp
  rw [hnil]
  simp

/-- Claim C3: a contributing Scatter adds weight exactly
1 / (c + minErrVal) at each covered pixel; for nonnegative cost and a
positive error floor this weight is positive, bounded by 1 / minErrVal,
equals 1 / minErrVal when the cost is 0, and differs from 1 / minErrVal by
at most c / minErrVal squared, so it never diverges as c tends to 0. -/
theorem scatter_weight_formula (p : PatchEstimate) (ip : ImageParams)
    (op : OptParams) (acc : FlowAccumulator) (x y : ℤ)
    (hcontrib : contributes p ip op x y)
    (hm : 0 < op.minErrVal) (hc : 0 ≤ costAt p op x y) :
    (densifyPatch p ip op acc).weight x y - acc.weight x y =
      1 / (costAt p op x y + op.minErrVal)
    ∧ 0 < patchWeight p op x y
    ∧ patchWeight p op x y ≤ 1 / op.minErrVal
    ∧ (costAt p op x y = 0 → patchWeight p op x y = 1 / op.minErrVal)
    ∧ |patchWeight p op x y - 1 / op.minErrVal| ≤
        costAt p op x y / (op.minErrVal * op.minErrVal) := by
  have hden : 0 < costAt p op x y + op.minErrVal := by linarith
  have hw : patchWeight p op x y = 1 / (costAt p op x y + op.minErrVal) := rfl
  have hpos : 0 < patchWeight p op x y := by
    rw [hw]
    exact one_div_pos.mpr hden
  have hle : patchWeight p op x y ≤ 1 / op.minErrVal := by
    rw [hw]
    exact one_div_le_one_div_of_le hm (by linarith)
  refine ⟨?_, hpos, hle, ?_, ?_⟩
  · rw [densifyPatch_weight_eq, if_pos hcontrib, add_sub_cancel_left]
    exact hw
  · intro h0
    rw [hw, h0, zero_add]
  · have habs : |patchWeight p op x y - 1 / op.minErrVal| =
        1 / op.minErrVal - patchWeight p op x y := by
      rw [abs_sub_comm]
      exact abs_of_nonneg (by linarith)
    rw [habs, hw]
    rw [div_sub_div _ _ (ne_of_gt hm) (ne_of_gt hden)]
    rw [div_le_div_iff₀ (by positivity) (by positivity)]
    nlinarith [mul_nonneg hc (le_of_lt hm), mul_nonneg hc hc,
      mul_pos hm hm]

/-- Claim C5: a patch whose validity flag is false is skipped entirely:
accumulating a patch list containing it yields the same accumulator as
accumulating the list with it removed. -/
theorem invalid_patch_no_effect (ps1 ps2 : List PatchEstimate)
    (p : PatchEstimate) (ip : ImageParams) (op : OptParams)
    (hv : p.valid = false) :
    densifyPatches (ps1 ++ p :: ps2) ip op =
      densifyPatches (ps1 ++ ps2) ip op := by
  unfold densifyPatches
  rw [List.foldl_append, List.foldl_append, List.foldl_cons]
  have hskip :
      densifyPatch p ip op
        (List.foldl (fun a q => densifyPatch q ip op a) zeroAcc ps1) =
      List.foldl (fun a q => densifyPatch q ip op a) zeroAcc ps1 := by
    unfold densifyPatch
    simp [hv]
  rw [hskip]

/-- Claim C6: densifyPatch writes exactly the pixels of the footprint
clipped to the image rectangle: outside that set every accumulator plane is
left unchanged for any patch and any midpoint, and inside it a valid patch
deposits its weight. -/
theorem densifyPatch_writes_footprint_only (p : PatchEstimate)
    (ip : ImageParams) (op : OptParams) (acc : FlowAccumulator) (x y : ℤ) :
    (¬ (inFootprint p op x y ∧ inImage ip x y) →
      (densifyPatch p ip op acc).flowX x y = acc.flowX x y ∧
      (densifyPatch p ip op acc).flowY x y = acc.flowY x y ∧
      (densifyPatch p ip op acc).weight x y = acc.weight x y)
    ∧ (p.valid = true → inFootprint p op x y → inImage ip x y →
      (densifyPatch p ip op acc).weight x y =
        acc.weight x y + patchWeight p op x y) := by
  constructor
  · intro h
    have hnc : ¬ contributes p ip op x y := by
      intro hcon
      exact h ⟨hcon.2.1, hcon.2.2⟩
    rw [densifyPatch_flowX_eq, densifyPatch_flowY_eq,
      densifyPatch_weight_eq]
    simp [hnc]
  · intro hv hf hi
    rw [densifyPatch_weight_eq, if_pos ⟨hv, hf, hi⟩]

/-- Claim C7: accumulation commutes: scattering patch p after patch q gives
the same accumulator as scattering q after p, exactly over the rational
model, and the two-patch orchestrations in either order agree. -/
theorem densify_order_invariant (p q : PatchEstimate) (ip : ImageParams)
    (op : OptParams) (acc : FlowAccumulator) :
    densifyPatch p ip op (densifyPatch q ip op acc) =
      densifyPatch q ip op (densifyPatch p ip op acc)
    ∧ densifyPatches [p, q] ip op = densifyPatches [q, p] ip op := by
  have hcomm : ∀ (a b : PatchEstimate) (acc2 : FlowAccumulator),
      densifyPatch a ip op (densifyPatch b ip op acc2) =
        densifyPatch b ip op (densifyPatch a ip op acc2) := by
    intro a b acc2
    ext x y
    · rw [densifyPatch_flowX_eq, densifyPatch_flowX_eq,
        densifyPatch_flowX_eq, densifyPatch_flowX_eq]
      ring
    · rw [densifyPatch_flowY_eq, densifyPatch_flowY_eq,
        densifyPatch_flowY_eq, densifyPatch_flowY_eq]
      ring
    · rw [densifyPatch_weight_eq, densifyPatch_weight_eq,
        densifyPatch_weight_eq, densifyPatch_weight_eq]
      ring
  refine ⟨hcomm p q acc, ?_⟩
  unfold densifyPatches
  simp only [List.foldl_cons, List.foldl_nil]
  exact hcomm q p zeroAcc

/-- Claim C2: normalizeFlow divides both accumulated flow components by the
accumulated weight wherever that weight is strictly positive, and at a
pixel of accumulated weight 0 (for an accumulator produced by
densifyPatches from nonnegative cost maps and a positive error floor) it
leaves the flow at the zero-initialized default (0, 0); zero weight is a
defined fallback, not an error. -/
theorem normalizeFlow_divides_or_defaults (ps : List PatchEstimate)
    (ip : ImageParams) (op : OptParams) (x y : ℤ)
    (hm : 0 < op.minErrVal)
    (hc : ∀ p ∈ ps, ∀ i j : ℤ, 0 ≤ p.cost i j) :
    (0 < (densifyPatches ps ip op).weight x y →
      (normalizeFlow (densifyPatches ps ip op)).flowX x y =
        (densifyPatches ps ip op).flowX x y /
          (densifyPatches ps ip op).weight x y ∧
      (normalizeFlow (densifyPatches ps ip op)).flowY x y =
        (densifyPatches ps ip op).flowY x y /
          (densifyPatches ps ip op).weight x y)
    ∧ ((densifyPatches ps ip op).weight x y = 0 →
      (normalizeFlow (densifyPatches ps ip op)).flowX x y = 0 ∧
      (normalizeFlow (densifyPatches ps ip op)).flowY x y = 0) := by
  constructor
  · intro hpos
    exact ⟨by simp [normalizeFlow, hpos], by simp [normalizeFlow, hpos]⟩
  · intro hzero
    have hw : (densifyPatches ps ip op).weight x y =
        (List.map (fun p => patchWeight p op x y)
          (List.filter (contributesB ip op x y) ps)).sum := by
      unfold densifyPatches
      rw [foldl_weight_eq]
      simp [zeroAcc]
    have hfilter : List.filter (contributesB ip op x y) ps = [] := by
      by_contra hne
      have hmapne : List.map (fun p => patchWeight p op x y)
          (List.filter (contributesB ip op x y) ps) ≠ [] := fun h =>
        hne (List.map_eq_nil_iff.mp h)
      have hallpos : ∀ a ∈ List.map (fun p => patchWeight p op x y)
          (List.filter (contributesB ip op x y) ps), 0 < a := by
        intro a ha
        rcases List.mem_map.mp ha with ⟨p, hp, rfl⟩
        have hpmem : p ∈ ps := List.mem_of_mem_filter hp
        have hcost : 0 ≤ costAt p op x y := hc p hpmem _ _
        unfold patchWeight
        exact one_div_pos.mpr (by linarith)
      have hsum := List.sum_pos _ hallpos hmapne
      rw [hw] at hzero
      linarith
    have hfx : (densifyPatches ps ip op).flowX x y = 0 := by
      unfold densifyPatches
      rw [foldl_flowX_eq]
      simp [zeroAcc, hfilter]
    have hfy : (densifyPatches ps ip op).flowY x y = 0 := by
      unfold densifyPatches
      rw [foldl_flowY_eq]
      simp [zeroAcc, hfilter]
    constructor
    · simp [normalizeFlow, hzero, hfx]
    · simp [normalizeFlow, hzero, hfy]

section ConcreteEvaluation

attribute [local semireducible] Rat.add Rat.mul Rat.inv Rat.sub

/-- Claim C1: for the 4 x 4 image, patchSize 2, minErrVal 0.01 and the
single valid patch at midpoint (1, 1) with flow (2, -1) and cost-difference
0 at every pixel of its footprint, the full pass (densifyPatches followed
by normalizeFlow) yields flow exactly (2, -1) with weight 100 at pixels
(0,0), (0,1), (1,0) and (1,1), and flow (0, 0) with weight 0 at the other
twelve pixels. -/
theorem scenario_end_to_end :
    ∀ x : Fin 4, ∀ y : Fin 4,
      ((x.val < 2 ∧ y.val < 2) →
        (normalizeFlow (densifyPatches [scenarioPatch] scenarioIp
          scenarioOp)).flowX (x.val : ℤ) (y.val : ℤ) = 2 ∧
        (normalizeFlow (densifyPatches [scenarioPatch] scenarioIp
          scenarioOp)).flowY (x.val : ℤ) (y.val : ℤ) = -1 ∧
        (normalizeFlow (densifyPatches [scenarioPatch] scenarioIp
          scenarioOp)).weight (x.val : ℤ) (y.val : ℤ) = 100) ∧
      ((2 ≤ x.val ∨ 2 ≤ y.val) →
        (normalizeFlow (densifyPatches [scenarioPatch] scenarioIp
          scenarioOp)).flowX (x.val : ℤ) (y.val : ℤ) = 0 ∧
        (normalizeFlow (densifyPatches [scenarioPatch] scenarioIp
          scenarioOp)).flowY (x.val : ℤ) (y.val : ℤ) = 0 ∧
        (normalizeFlow (densifyPatches [scenarioPatch] scenarioIp
          scenarioOp)).weight (x.val : ℤ) (y.val : ℤ) = 0) := by
  decide

/-- Witness for claim C1, read off at the covered pixel (0, 0) and the
uncovered pixel (3, 3). -/
theorem scenario_end_to_end_witness :
    (normalizeFlow (densifyPatches [scenarioPatch] scenarioIp
      scenarioOp)).flowX (((0 : Fin 4)).val : ℤ) (((0 : Fin 4)).val : ℤ) = 2
    ∧ (normalizeFlow (densifyPatches [scenarioPatch] scenarioIp
      scenarioOp)).weight (((3 : Fin 4)).val : ℤ)
        (((3 : Fin 4)).val : ℤ) = 0 :=
  ⟨((scenario_end_to_end 0 0).1 (by decide)).1,
   ((scenario_end_to_end 3 3).2 (by decide)).2.2⟩

/-- Witness for claim C2, read off at the covered pixel (1, 1) and the
uncovered pixel (3, 0) of the end-to-end scenario. -/
theorem normalizeFlow_divides_or_defaults_witness :
    0 < scenarioOp.minErrVal
    ∧ 0 < (densifyPatches [scenarioPatch] scenarioIp scenarioOp).weight 1 1
    ∧ ((normalizeFlow (densifyPatches [scenarioPatch] scenarioIp
          scenarioOp)).flowX 1 1 =
        (densifyPatches [scenarioPatch] scenarioIp scenarioOp).flowX 1 1 /
          (densifyPatches [scenarioPatch] scenarioIp scenarioOp).weight 1 1 ∧
       (normalizeFlow (densifyPatches [scenarioPatch] scenarioIp
          scenarioOp)).flowY 1 1 =
        (densifyPatches [scenarioPatch] scenarioIp scenarioOp).flowY 1 1 /
          (densifyPatches [scenarioPatch] scenarioIp scenarioOp).weight 1 1)
    ∧ (densifyPatches [scenarioPatch] scenarioIp scenarioOp).weight 3 0 = 0
    ∧ ((normalizeFlow (densifyPatches [scenarioPatch] scenarioIp
          scenarioOp)).flowX 3 0 = 0 ∧
       (normalizeFlow (densifyPatches [scenarioPatch] scenarioIp
          scenarioOp)).flowY 3 0 = 0) :=
  ⟨by decide, by decide,
   (normalizeFlow_divides_or_defaults [scenarioPatch] scenarioIp scenarioOp
      1 1 (by decide)
      (fun p hp i j => by
        rcases List.mem_singleton.mp hp with rfl
        simp [scenarioPatch])).1 (by decide),
   by decide,
   (normalizeFlow_divides_or_defaults [scenarioPatch] scenarioIp scenarioOp
      3 0 (by decide)
      (fun p hp i j => by
        rcases List.mem_singleton.mp hp with rfl
        simp [scenarioPatch])).2 (by decide)⟩

end ConcreteEvaluation

end Densify

namespace Densify

/-- Witness for claim C4: the pixel (3, 3) is covered by no patch of the
scenario, so its accumulated weight is 0. -/
theorem densifyPatches_weight_conservation_witness :
    (densifyPatches [scenarioPatch] scenarioIp scenarioOp).weight 3 3 = 0 :=
  (densifyPatches_weight_conservation [scenarioPatch] scenarioIp scenarioOp
      3 3).2 (by decide)

/-- Witness for claim C5: dropping the concrete invalid patch from a
one-patch list leaves the accumulator unchanged. -/
theorem invalid_patch_no_effect_witness :
    invalidPatch.valid = false ∧
    densifyPatches ([] ++ invalidPatch :: []) scenarioIp scenarioOp =
      densifyPatches ([] ++ []) scenarioIp scenarioOp :=
  ⟨rfl, invalid_patch_no_effect [] [] invalidPatch scenarioIp scenarioOp rfl⟩

/-- Witness for claim C6: the scenario patch leaves pixel (3, 3), outside
its footprint, untouched, and deposits its weight at the covered pixel
(0, 0). -/
theorem densifyPatch_writes_footprint_only_witness :
    ((densifyPatch scenarioPatch scenarioIp scenarioOp zeroAcc).flowX 3 3 =
        zeroAcc.flowX 3 3 ∧
      (densifyPatch scenarioPatch scenarioIp scenarioOp zeroAcc).flowY 3 3 =
        zeroAcc.flowY 3 3 ∧
      (densifyPatch scenarioPatch scenarioIp scenarioOp zeroAcc).weight 3 3 =
        zeroAcc.weight 3 3)
    ∧ (densifyPatch scenarioPatch scenarioIp scenarioOp zeroAcc).weight 0 0 =
        zeroAcc.weight 0 0 + patchWeight scenarioPatch scenarioOp 0 0 :=
  ⟨(densifyPatch_writes_footprint_only scenarioPatch scenarioIp scenarioOp
      zeroAcc 3 3).1 (by decide),
   (densifyPatch_writes_footprint_only scenarioPatch scenarioIp scenarioOp
      zeroAcc 0 0).2 rfl (by decide) (by decide)⟩

section ConcreteWitnesses

attribute [local semireducible] Rat.add Rat.mul Rat.inv Rat.sub

/-- Witness for claim C3, instantiated at the scenario patch, the
zero-initialized accumulator and the covered pixel (0, 0). -/
theorem scatter_weight_formula_witness :
    contributes scenarioPatch scenarioIp scenarioOp 0 0
    ∧ 0 < scenarioOp.minErrVal
    ∧ 0 ≤ costAt scenarioPatch scenarioOp 0 0
    ∧ ((densifyPatch scenarioPatch scenarioIp scenarioOp zeroAcc).weight 0 0
          - zeroAcc.weight 0 0 =
        1 / (costAt scenarioPatch scenarioOp 0 0 + scenarioOp.minErrVal)
      ∧ 0 < patchWeight scenarioPatch scenarioOp 0 0
      ∧ patchWeight scenarioPatch scenarioOp 0 0 ≤ 1 / scenarioOp.minErrVal
      ∧ (costAt scenarioPatch scenarioOp 0 0 = 0 →
          patchWeight scenarioPatch scenarioOp 0 0 = 1 / scenarioOp.minErrVal)
      ∧ |patchWeight scenarioPatch scenarioOp 0 0 - 1 / scenarioOp.minErrVal|
          ≤ costAt scenarioPatch scenarioOp 0 0 /
            (scenarioOp.minErrVal * scenarioOp.minErrVal)) :=
  ⟨by decide, by decide, by decide,
   scatter_weight_formula scenarioPatch scenarioIp scenarioOp zeroAcc 0 0
     (by decide) (by decide) (by decide)⟩

end ConcreteWitnesses

/-- Commuting two atomic adds gives the same accumulator. -/
lemma applyOp_comm (acc : FlowAccumulator) (o1 o2 : WriteOp) :
    applyOp (applyOp acc o1) o2 = applyOp (applyOp acc o2) o1 := by
  unfold applyOp
  ext x y <;> dsimp only <;> split_ifs <;> ring

/-- Running a sequence of atomic adds accumulates, at each pixel, the sum
of the weight deltas of the operations aimed at it. -/
lemma applyOps_weight_eq (ops : List WriteOp) (acc : FlowAccumulator)
    (x y : ℤ) :
    (applyOps ops acc).weight x y =
      acc.weight x y +
        (List.map (fun o => if o.x = x ∧ o.y = y then o.dWeight else 0)
          ops).sum := by
  induction ops generalizing acc with
  | nil => simp [applyOps]
  | cons o ops ih =>
      simp only [applyOps, List.foldl_cons] at ih ⊢
      rw [ih, List.map_cons, List.sum_cons]
      have ho : (applyOp acc o).weight x y =
          acc.weight x y + (if o.x = x ∧ o.y = y then o.dWeight else 0) := by
        unfold applyOp
        by_cases h : o.x = x ∧ o.y = y
        · simp [h]
        · simp [h]
      rw [ho]
      ring

/-- Running a sequence of atomic adds accumulates, at each pixel, the sum
of the x-flow deltas of the operations aimed at it. -/
lemma applyOps_flowX_eq (ops : List WriteOp) (acc : FlowAccumulator)
    (x y : ℤ) :
    (applyOps ops acc).flowX x y =
      acc.flowX x y +
        (List.map (fun o => if o.x = x ∧ o.y = y then o.dFlowX else 0)
          ops).sum := by
  induction ops generalizing acc with
  | nil => simp [applyOps]
  | cons o ops ih =>
      simp only [applyOps, List.foldl_cons] at ih ⊢
      rw [ih, List.map_cons, List.sum_cons]
      have ho : (applyOp acc o).flowX x y =
          acc.flowX x y + (if o.x = x ∧ o.y = y then o.dFlowX else 0) := by
        unfold applyOp
        by_cases h : o.x = x ∧ o.y = y
        · simp [h]
        · simp [h]
      rw [ho]
      ring

/-- Running a sequence of atomic adds accumulates, at each pixel, the sum
of the y-flow deltas of the operations aimed at it. -/
lemma applyOps_flowY_eq (ops : List WriteOp) (acc : FlowAccumulator)
    (x y : ℤ) :
    (applyOps ops acc).flowY x y =
      acc.flowY x y +
        (List.map (fun o => if o.x = x ∧ o.y = y then o.dFlowY else 0)
          ops).sum := by
  induction ops generalizing acc with
  | nil => simp [applyOps]
  | cons o ops ih =>
      simp only [applyOps, List.foldl_cons] at ih ⊢
      rw [ih, List.map_cons, List.sum_cons]
      have ho : (applyOp acc o).flowY x y =
          acc.flowY x y + (if o.x = x ∧ o.y = y then o.dFlowY else 0) := by
        unfold applyOp
        by_cases h : o.x = x ∧ o.y = y
        · simp [h]
        · simp [h]
      rw [ho]
      ring

/-- Membership in the clipped x range of a footprint. -/
lemma mem_footprintXs (p : PatchEstimate) (ip : ImageParams)
    (op : OptParams) (a : ℤ) :
    a ∈ footprintXs p ip op ↔
      (loX p op ≤ a ∧ a < hiX p op) ∧ (0 ≤ a ∧ a < ip.width) := by
  unfold footprintXs
  rw [List.mem_filter]
  simp only [List.mem_map, List.mem_range, decide_eq_true_eq]
  constructor
  · rintro ⟨⟨i, hi, rfl⟩, h2⟩
    exact ⟨⟨by omega, by omega⟩, h2⟩
  · rintro ⟨⟨h1, h2⟩, h3⟩
    exact ⟨⟨(a - loX p op).toNat, by omega, by omega⟩, h3⟩

/-- Membership in the clipped y range of a footprint. -/
lemma mem_footprintYs (p : PatchEstimate) (ip : ImageParams)
    (op : OptParams) (a : ℤ) :
    a ∈ footprintYs p ip op ↔
      (loY p op ≤ a ∧ a < hiY p op) ∧ (0 ≤ a ∧ a < ip.height) := by
  unfold footprintYs
  rw [List.mem_filter]
  simp only [List.mem_map, List.mem_range, decide_eq_true_eq]
  constructor
  · rintro ⟨⟨i, hi, rfl⟩, h2⟩
    exact ⟨⟨by omega, by omega⟩, h2⟩
  · rintro ⟨⟨h1, h2⟩, h3⟩
    exact ⟨⟨(a - loY p op).toNat, by omega, by omega⟩, h3⟩

/-- The clipped x range has no duplicates. -/
lemma nodup_footprintXs (p : PatchEstimate) (ip : ImageParams)
    (op : OptParams) : (footprintXs p ip op).Nodup := by
  unfold footprintXs
  have hmap : (List.map (fun i : ℕ => loX p op + (i : ℤ))
      (List.range (hiX p op - loX p op).toNat)).Nodup := by
    refine List.Nodup.map ?_ (List.nodup_range _)
    intro i j hij
    have hij2 : loX p op + (i : ℤ) = loX p op + (j : ℤ) := hij
    omega
  exact hmap.filter _

/-- The clipped y range has no duplicates. -/
lemma nodup_footprintYs (p : PatchEstimate) (ip : ImageParams)
    (op : OptParams) : (footprintYs p ip op).Nodup := by
  unfold footprintYs
  have hmap : (List.map (fun i : ℕ => loY p op + (i : ℤ))
      (List.range (hiY p op - loY p op).toNat)).Nodup := by
    refine List.Nodup.map ?_ (List.nodup_range _)
    intro i j hij
    have hij2 : loY p op + (i : ℤ) = loY p op + (j : ℤ) := hij
    omega
  exact hmap.filter _

/-- A pixel lies in the clipped footprint pixel list exactly when it lies
in the footprint and in the image. -/
lemma mem_footprintPixels (p : PatchEstimate) (ip : ImageParams)
    (op : OptParams) (x y : ℤ) :
    (x, y) ∈ footprintPixels p ip op ↔
      inFootprint p op x y ∧ inImage ip x y := by
  unfold footprintPixels
  rw [List.mem_product, mem_footprintXs, mem_footprintYs]
  unfold inFootprint inImage
  omega

/-- The clipped footprint pixel list has no duplicates. -/
lemma nodup_footprintPixels (p : PatchEstimate) (ip : ImageParams)
    (op : OptParams) : (footprintPixels p ip op).Nodup :=
  (nodup_footprintXs p ip op).product (nodup_footprintYs p ip op)

/-- Summing a per-pixel indicator over a duplicate-free pixel list picks
out at most the one matching entry. -/
lemma sum_map_ite_target (l : List (ℤ × ℤ)) (hnd : l.Nodup) (x y : ℤ)
    (g : ℤ × ℤ → ℚ) :
    (List.map (fun q => if q.1 = x ∧ q.2 = y then g q else 0) l).sum =
      if (x, y) ∈ l then g (x, y) else 0 := by
  induction l with
  | nil => simp
  | cons b l ih =>
      rcases List.nodup_cons.mp hnd with ⟨hb, hl⟩
      simp only [List.map_cons, List.sum_cons, ih hl, List.mem_cons]
      by_cases hba : b.1 = x ∧ b.2 = y
      · have hbxy : b = (x, y) := Prod.ext hba.1 hba.2
        rw [if_pos hba, hbxy]
        rw [hbxy] at hb
        rw [if_neg hb, if_pos (Or.inl rfl), add_zero]
      · have hxyb : ¬ (x, y) = b := by
          intro h
          apply hba
          rw [← h]
          exact ⟨rfl, rfl⟩
        rw [if_neg hba, zero_add]
        by_cases hmem : (x, y) ∈ l
        · rw [if_pos hmem, if_pos (Or.inr hmem)]
        · rw [if_neg hmem, if_neg (fun h => h.elim hxyb hmem)]

/-- Claim C9: during the scatter phase every write to the shared
accumulator is an atomic add of weight*flowX and weight*flowY to the flow
cell and weight to the weight cell at (x, y); a Scatter unit is exactly
the sequence of such adds over its clipped footprint, a single add never
loses an update, and the accumulated result is independent of the
interleaving of the adds of concurrent units. -/
theorem atomic_add_model_sound :
    (∀ (ops1 ops2 : List WriteOp) (acc : FlowAccumulator),
      ops1.Perm ops2 → applyOps ops1 acc = applyOps ops2 acc)
    ∧ (∀ (o : WriteOp) (acc : FlowAccumulator),
      (applyOp acc o).flowX o.x o.y = acc.flowX o.x o.y + o.dFlowX ∧
      (applyOp acc o).flowY o.x o.y = acc.flowY o.x o.y + o.dFlowY ∧
      (applyOp acc o).weight o.x o.y = acc.weight o.x o.y + o.dWeight)
    ∧ (∀ (p : PatchEstimate) (ip : ImageParams) (op : OptParams)
        (acc : FlowAccumulator),
      densifyPatch p ip op acc = applyOps (writeOps p ip op) acc) := by
  refine ⟨?_, ?_, ?_⟩
  · intro ops1 ops2 acc hperm
    haveI : RightCommutative applyOp :=
      ⟨fun acc2 o1 o2 => applyOp_comm acc2 o1 o2⟩
    exact hperm.foldl_eq acc
  · intro o acc
    unfold applyOp
    refine ⟨?_, ?_, ?_⟩ <;> simp
  · intro p ip op acc
    ext x y
    · rw [densifyPatch_flowX_eq, applyOps_flowX_eq]
      unfold writeOps
      by_cases hv : p.valid = true
      · rw [if_pos hv, List.map_map]
        have hfun : ((fun o : WriteOp =>
            if o.x = x ∧ o.y = y then o.dFlowX else 0) ∘
            (fun q : ℤ × ℤ =>
              ({ x := q.1, y := q.2
                 dFlowX := patchWeight p op q.1 q.2 * p.flowX
                 dFlowY := patchWeight p op q.1 q.2 * p.flowY
                 dWeight := patchWeight p op q.1 q.2 } : WriteOp))) =
            fun q : ℤ × ℤ =>
              if q.1 = x ∧ q.2 = y then patchWeight p op q.1 q.2 * p.flowX
              else 0 := by
          funext q
          rfl
        rw [hfun, sum_map_ite_target _ (nodup_footprintPixels p ip op) x y _]
        by_cases hin : inFootprint p op x y ∧ inImage ip x y
        · rw [if_pos ((mem_footprintPixels p ip op x y).mpr hin),
            if_pos ⟨hv, hin.1, hin.2⟩]
        · rw [if_neg
            (fun hmem => hin ((mem_footprintPixels p ip op x y).mp hmem)),
            if_neg (fun hcon => hin ⟨hcon.2.1, hcon.2.2⟩)]
      · rw [if_neg hv]
        have hnc : ¬ contributes p ip op x y := fun h => hv h.1
        simp [hnc]
    · rw [densifyPatch_flowY_eq, applyOps_flowY_eq]
      unfold writeOps
      by_cases hv : p.valid = true
      · rw [if_pos hv, List.map_map]
        have hfun : ((fun o : WriteOp =>
            if o.x = x ∧ o.y = y then o.dFlowY else 0) ∘
            (fun q : ℤ × ℤ =>
              ({ x := q.1, y := q.2
                 dFlowX := patchWeight p op q.1 q.2 * p.flowX
                 dFlowY := patchWeight p op q.1 q.2 * p.flowY
                 dWeight := patchWeight p op q.1 q.2 } : WriteOp))) =
            fun q : ℤ × ℤ =>
              if q.1 = x ∧ q.2 = y then patchWeight p op q.1 q.2 * p.flowY
              else 0 := by
          funext q
          rfl
        rw [hfun, sum_map_ite_target _ (nodup_footprintPixels p ip op) x y _]
        by_cases hin : inFootprint p op x y ∧ inImage ip x y
        · rw [if_pos ((mem_footprintPixels p ip op x y).mpr hin),
            if_pos ⟨hv, hin.1, hin.2⟩]
        · rw [if_neg
            (fun hmem => hin ((mem_footprintPixels p ip op x y).mp hmem)),
            if_neg (fun hcon => hin ⟨hcon.2.1, hcon.2.2⟩)]
      · rw [if_neg hv]
        have hnc : ¬ contributes p ip op x y := fun h => hv h.1
        simp [hnc]
    · rw [densifyPatch_weight_eq, applyOps_weight_eq]
      unfold writeOps
      by_cases hv : p.valid = true
      · rw [if_pos hv, List.map_map]
        have hfun : ((fun o : WriteOp =>
            if o.x = x ∧ o.y = y then o.dWeight else 0) ∘
            (fun q : ℤ × ℤ =>
              ({ x := q.1, y := q.2
                 dFlowX := patchWeight p op q.1 q.2 * p.flowX
                 dFlowY := patchWeight p op q.1 q.2 * p.flowY
                 dWeight := patchWeight p op q.1 q.2 } : WriteOp))) =
            fun q : ℤ × ℤ =>
              if q.1 = x ∧ q.2 = y then patchWeight p op q.1 q.2
              else 0 := by
          funext q
          rfl
        rw [hfun, sum_map_ite_target _ (nodup_footprintPixels p ip op) x y _]
        by_cases hin : inFootprint p op x y ∧ inImage ip x y
        · rw [if_pos ((mem_footprintPixels p ip op x y).mpr hin),
            if_pos ⟨hv, hin.1, hin.2⟩]
        · rw [if_neg
            (fun hmem => hin ((mem_footprintPixels p ip op x y).mp hmem)),
            if_neg (fun hcon => hin ⟨hcon.2.1, hcon.2.2⟩)]
      · rw [if_neg hv]
        have hnc : ¬ contributes p ip op x y := fun h => hv h.1
        simp [hnc]

/-- Witness for claim C9: the two concrete atomic adds aimed at pixel
(0, 0) may run in either order. -/
theorem atomic_add_model_sound_witness :
    applyOps [opA, opB] zeroAcc = applyOps [opB, opA] zeroAcc :=
  atomic_add_model_sound.1 [opA, opB] [opB, opA] zeroAcc
    (List.Perm.swap opB opA [])

/-- Claim C8: if any patch of the set violates the Scatter preconditions
(out-of-range midpoint, non-positive patchSize or mismatched cost-map
dimensions), the checked orchestration pass aborts with that error and
surfaces no accumulator at all; only when every patch passes the contract
check is the fully accumulated FlowAccumulator produced. -/
theorem checked_orchestrator_aborts (ps : List PatchEstimate)
    (ip : ImageParams) (op : OptParams) :
    ((∃ p ∈ ps, patchViolation p ip op ≠ none) →
      ∃ e, densifyPatchesChecked ps ip op = Except.error e)
    ∧ ((∀ p ∈ ps, patchViolation p ip op = none) →
      densifyPatchesChecked ps ip op =
        Except.ok (densifyPatches ps ip op)) := by
  constructor
  · rintro ⟨p, hp, hv⟩
    cases hfv : firstViolation ps ip op with
    | some e =>
        refine ⟨e, ?_⟩
        unfold densifyPatchesChecked
        rw [hfv]
    | none =>
        exfalso
        unfold firstViolation at hfv
        exact hv (List.findSome?_eq_none_iff.mp hfv p hp)
  · intro hall
    have hfv : firstViolation ps ip op = none := by
      unfold firstViolation
      exact List.findSome?_eq_none_iff.mpr hall
    unfold densifyPatchesChecked
    rw [hfv]

/-- Witness for claim C8: a one-patch set whose midpoint is out of range
aborts with an error, and the conforming scenario set yields the
accumulated result. -/
theorem checked_orchestrator_aborts_witness :
    (∃ e, densifyPatchesChecked [badPatch] scenarioIp scenarioOp =
      Except.error e)
    ∧ densifyPatchesChecked [scenarioPatch] scenarioIp scenarioOp =
      Except.ok (densifyPatches [scenarioPatch] scenarioIp scenarioOp) :=
  ⟨(checked_orchestrator_aborts [badPatch] scenarioIp scenarioOp).1
      ⟨badPatch, List.mem_singleton.mpr rfl, by decide⟩,
   (checked_orchestrator_aborts [scenarioPatch] scenarioIp scenarioOp).2
      (by decide)⟩

end Densify

namespace CuMat

/-- Claim C10: resizeGrad rejects an input whose element type is not
CV_32FC3 by throwing std::invalid_argument before any allocation, device
work or mutation of the output matrices (the observable step trace is
empty), and on a conforming input it leaves src untouched and gives dst,
dst_x and dst_y identical dimensions, namely those of the resize rectangle
computed from the source width, height and the two scale factors. -/
theorem resizeGrad_typecheck_and_dims
    (getRect : ℤ → ℤ → ℚ → ℚ → ℤ × ℤ) (fresh : ℕ)
    (src dst dstX dstY : Mat) (scaleX scaleY : ℚ) :
    (src.matType ≠ CV_32FC3 →
      resizeGrad getRect fresh src dst dstX dstY scaleX scaleY =
        ([], Except.error RGError.invalidArgument))
    ∧ (src.matType = CV_32FC3 →
      ∃ out : RGResult,
        (resizeGrad getRect fresh src dst dstX dstY scaleX scaleY).2 =
          Except.ok out ∧
        out.src = src ∧
        out.dst.rows = (getRect src.cols src.rows scaleX scaleY).2 ∧
        out.dst.cols = (getRect src.cols src.rows scaleX scaleY).1 ∧
        out.dstX.rows = out.dst.rows ∧ out.dstX.cols = out.dst.cols ∧
        out.dstY.rows = out.dst.rows ∧ out.dstY.cols = out.dst.cols) := by
  constructor
  · intro h
    unfold resizeGrad
    rw [if_pos h]
  · intro h
    unfold resizeGrad
    rw [if_neg (not_not_intro h)]
    exact ⟨_, rfl, rfl, rfl, rfl, rfl, rfl, rfl, rfl⟩

/-- Witness for claim C10: a wrongly typed source is rejected with an
empty step trace, and a conforming 3 x 2 source run with the identity
resize rectangle yields three outputs of equal dimensions. -/
theorem resizeGrad_typecheck_and_dims_witness :
    resizeGrad (fun w h _ _ => (w, h)) 0 badSrc goodSrc goodSrc goodSrc 1 1 =
      ([], Except.error RGError.invalidArgument)
    ∧ (∃ out : RGResult,
        (resizeGrad (fun w h _ _ => (w, h)) 0 goodSrc goodSrc goodSrc
          goodSrc 1 1).2 = Except.ok out ∧
        out.src = goodSrc ∧
        out.dst.rows = ((fun (w : ℤ) (h : ℤ) (_ : ℚ) (_ : ℚ) => (w, h))
          goodSrc.cols goodSrc.rows 1 1).2 ∧
        out.dst.cols = ((fun (w : ℤ) (h : ℤ) (_ : ℚ) (_ : ℚ) => (w, h))
          goodSrc.cols goodSrc.rows 1 1).1 ∧
        out.dstX.rows = out.dst.rows ∧ out.dstX.cols = out.dst.cols ∧
        out.dstY.rows = out.dst.rows ∧ out.dstY.cols = out.dst.cols) :=
  ⟨(resizeGrad_typecheck_and_dims (fun w h _ _ => (w, h)) 0 badSrc goodSrc
      goodSrc goodSrc 1 1).1 (by decide),
   (resizeGrad_typecheck_and_dims (fun w h _ _ => (w, h)) 0 goodSrc goodSrc
      goodSrc goodSrc 1 1).2 (by decide)⟩

end CuMat
